import Mathlib

/-!
Verification of the port-group dispatch engine of the
YetAnotherArduinoPcInt library (`src/YetAnotherPCInt.cpp`).

The embedding is a shallow one: the per-port mutable state (`PcIntPort`
together with the group's hardware mask register `PCMSKn` and its enable
bit in `PCICR`) becomes a Lean structure, 8-bit machine arithmetic becomes
`Nat` with explicit `% 256` where C truncates into a `uint8_t`, callback
and user-argument pointers become `Option C` / `Option A` for abstract
types `C` and `A` (with `none` playing the role of the null pointer), and
the interrupt service routine becomes a pure function returning the
updated state together with the ordered list of callback invocations it
performs.
-/

namespace YetAnotherPCInt

/-- Arduino core constant `CHANGE` (from the Arduino headers the
library compiles against). -/
def CHANGE : Nat := 1

/-- Arduino core constant `FALLING`. -/
def FALLING : Nat := 2

/-- Arduino core constant `RISING`. -/
def RISING : Nat := 3

/-- The AVR macro `_BV(n)`, i.e. `1 << n`. -/
def BV (n : Nat) : Nat := 1 <<< n

/-- Bitwise complement as it lands in an 8-bit context (`~x` with the
result used against `uint8_t` operands). -/
def compl8 (x : Nat) : Nat := 255 ^^^ x

/-- State of one port group.  Fields `funcs`, `args`, `state`, `rising`,
`falling` are exactly the members of the C++ class `PcIntPort`; `pcmsk`
models the group's hardware mask register `*pcmsk` (`PCMSKn`) and
`icrEnabled` models the group's bit in the interrupt-control register
`*pcicr` (`PCICR`).  `C` is the (abstract) type of callback function
pointers, `A` the pointee type of the `void*` user argument; `none`
models a null pointer. -/
@[ext]
structure PcIntPort (C A : Type) where
  funcs : Fin 8 → Option C
  args : Fin 8 → Option A
  state : Nat
  rising : Nat
  falling : Nat
  pcmsk : Nat
  icrEnabled : Bool

/-- Initial state of a port group.  The C++ objects `port0`..`port3` have
static storage duration, so they are zero-initialized (which already sets
every member, `args` included, to zero/null) and then the `PcIntPort`
constructor runs, setting `funcs` to eight null pointers and `state`,
`rising`, `falling` to 0.  The AVR mask/enable registers reset to 0. -/
def PcIntPort.init (C A : Type) : PcIntPort C A :=
  { funcs := fun _ => none
    args := fun _ => none
    state := 0
    rising := 0
    falling := 0
    pcmsk := 0
    icrEnabled := false }

/-- One callback invocation performed by the interrupt service routine:
the bit position, the callback pointer that was called, the user argument
it was passed, and the `bool` pin-level argument. -/
structure Event (C A : Type) where
  bit : Fin 8
  func : C
  arg : Option A
  level : Bool

/-- The `trigger_pins` computation of `IMPLEMENT_ISR`:
`(port.state ^ new_state) & ((port.rising & new_state) | (port.falling & ~new_state))`,
truncated into a `uint8_t` local. -/
def isrTrigger {C A : Type} (port : PcIntPort C A) (new_state : Nat) : Nat :=
  ((port.state ^^^ new_state) &&&
    ((port.rising &&& new_state) ||| (port.falling &&& compl8 new_state))) % 256

/-- The loop counter values `nr = 0, 1, ..., 7` of the ISR's `for` loop. -/
def bits8 : List (Fin 8) := [0, 1, 2, 3, 4, 5, 6, 7]

/-- One iteration of the ISR's `for` loop body:
`if ((trigger_pins & _BV(nr)) && port.funcs[nr]) (*port.funcs[nr])(port.args[nr], bool(_BV(nr) & new_state));`,
accumulating the invocation it performs (if any). -/
def isrStep {C A : Type} (port : PcIntPort C A) (trigger_pins new_state : Nat)
    (acc : List (Event C A)) (nr : Fin 8) : List (Event C A) :=
  if trigger_pins &&& BV nr.val ≠ 0 then
    match port.funcs nr with
    | some f => acc ++ [⟨nr, f, port.args nr, decide (BV nr.val &&& new_state ≠ 0)⟩]
    | none => acc
  else acc

/-- The invocation (if any) that loop iteration `nr` performs, as an
`Option`; used to restate the accumulating loop as a `filterMap`. -/
def isrEmit {C A : Type} (port : PcIntPort C A) (trigger_pins new_state : Nat)
    (nr : Fin 8) : Option (Event C A) :=
  if trigger_pins &&& BV nr.val ≠ 0 then
    (port.funcs nr).map (fun f => ⟨nr, f, port.args nr, decide (BV nr.val &&& new_state ≠ 0)⟩)
  else none

/-- The body of `IMPLEMENT_ISR`: reads the pin register (a `uint8_t`
read, hence `% 256`), computes `trigger_pins` from the old snapshot,
overwrites `port.state` with the new value, then runs the loop for
`nr = 0` to `7` in ascending order.  Returns the new port state and the
list of callback invocations in the order they are performed. -/
def isrRun {C A : Type} (port : PcIntPort C A) (pin_register : Nat) :
    PcIntPort C A × List (Event C A) :=
  let new_state := pin_register % 256
  let trigger_pins := isrTrigger port new_state
  let port1 : PcIntPort C A := { port with state := new_state }
  (port1, bits8.foldl (isrStep port1 trigger_pins new_state) [])

/-- Repeated ISR invocations: run the dispatcher once per listed pin
register reading, threading the port state, and concatenate the
invocation lists. -/
def dispatchMany {C A : Type} (port : PcIntPort C A) :
    List Nat → PcIntPort C A × List (Event C A)
  | [] => (port, [])
  | r :: rs =>
    let step := isrRun port r
    let rest := dispatchMany step.1 rs
    (rest.1, step.2 ++ rest.2)

/-! Helper lemmas about 8-bit arithmetic. -/

theorem testBit_mod256 (x i : Nat) (hi : i < 8) : (x % 256).testBit i = x.testBit i := by
  have h : (256 : Nat) = 2 ^ 8 := by norm_num
  rw [h, Nat.testBit_mod_two_pow]
  simp [hi]

theorem testBit_255 (i : Nat) (hi : i < 8) : Nat.testBit 255 i = true := by
  interval_cases i <;> decide

theorem testBit_BV (n i : Nat) : (BV n).testBit i = decide (n = i) := by
  rw [BV, Nat.one_shiftLeft, Nat.testBit_two_pow]

theorem testBit_compl8 (x i : Nat) (hi : i < 8) :
    (compl8 x).testBit i = !x.testBit i := by
  rw [compl8, Nat.testBit_xor, testBit_255 i hi, Bool.true_xor]

theorem land_BV_eq (x n : Nat) : x &&& BV n = if x.testBit n then BV n else 0 := by
  apply Nat.eq_of_testBit_eq
  intro i
  rw [Nat.testBit_land, testBit_BV]
  by_cases h : n = i
  · subst h
    cases hx : x.testBit n <;> simp [hx, testBit_BV]
  · cases hx : x.testBit n <;> simp [h, Ne.symm h, testBit_BV]

theorem land_BV_ne_zero (x n : Nat) : (x &&& BV n ≠ 0) ↔ x.testBit n = true := by
  rw [land_BV_eq]
  by_cases h : x.testBit n <;> simp [h, BV, Nat.one_shiftLeft]

theorem BV_land_ne_zero (x n : Nat) : (BV n &&& x ≠ 0) ↔ x.testBit n = true := by
  rw [Nat.land_comm]
  exact land_BV_ne_zero x n

/-! Registration API.  The board-specific macros `digitalPinToPCICR`,
`digitalPinToPCMSK`, `digitalPinToPCICRbit`, `digitalPinToPCMSKbit`, the
conditional instantiation of `port0`..`port3` (`get_port`) and the live
port read (`get_port_value`) are external collaborators; they are
modelled as an abstract `Board`. -/

/-- Resolution data for one logical pin: whether `digitalPinToPCICR(pin)`
and `digitalPinToPCMSK(pin)` are non-null, and the values of
`digitalPinToPCICRbit(pin)` (the port group) and
`digitalPinToPCMSKbit(pin)` (the bit position). -/
structure PinInfo where
  pcicrOk : Bool
  pcmskOk : Bool
  group : Nat
  bit : Fin 8

/-- The board environment: the pin-resolution table, which port groups
have a `PcIntPort` instance and ISR (`PCINT_INPUT_PORTn` defined, so
`get_port` returns non-null), and the live value of each port's pin
register as read by `get_port_value`. -/
structure Board where
  pinInfo : Nat → PinInfo
  supported : Nat → Bool
  portValue : Nat → Nat

/-- Whether the guard `pcicr && pcmsk && port` of the registration
operations succeeds for `pin`: both register pointers resolve and
`get_port` returns a non-null port. -/
def Board.mapped (B : Board) (pin : Nat) : Prop :=
  (B.pinInfo pin).pcicrOk = true ∧ (B.pinInfo pin).pcmskOk = true ∧
    B.supported (B.pinInfo pin).group = true

instance (B : Board) (pin : Nat) : Decidable (B.mapped pin) := by
  unfold Board.mapped
  infer_instance

/-- The state of all port groups, indexed by group id (entries for
unsupported groups are never read or written by any operation). -/
def SysState (C A : Type) := Nat → PcIntPort C A

/-- The critical-section body of `PcInt::attachInterrupt`, acting on one
port group: stores the callback and argument, rewrites the mode masks,
sets the hardware mask bit, enables the group's interrupt source, and
refreshes only this pin's bit of the snapshot from the live port value
`pv` (a `uint8_t` read). -/
def attachBody {C A : Type} (port : PcIntPort C A) (portBit : Fin 8)
    (func : C) (arg : Option A) (mode : Nat) (pv : Nat) : PcIntPort C A :=
  let portBitMask := BV portBit.val
  { funcs := Function.update port.funcs portBit (some func)
    args := Function.update port.args portBit arg
    rising := (if mode = RISING ∨ mode = CHANGE then port.rising ||| portBitMask
               else port.rising &&& compl8 portBitMask) % 256
    falling := (if mode = FALLING ∨ mode = CHANGE then port.falling ||| portBitMask
                else port.falling &&& compl8 portBitMask) % 256
    pcmsk := (port.pcmsk ||| portBitMask) % 256
    icrEnabled := true
    state := ((port.state &&& compl8 portBitMask) ||| ((pv % 256) &&& portBitMask)) % 256 }

/-- The critical-section body of `PcInt::detachInterrupt`: clears the
callback, argument and both mode bits, clears the hardware mask bit, and
switches the group's interrupt source off when the whole mask became
zero. -/
def detachBody {C A : Type} (port : PcIntPort C A) (portBit : Fin 8) : PcIntPort C A :=
  let portBitMask := BV portBit.val
  { funcs := Function.update port.funcs portBit none
    args := Function.update port.args portBit none
    rising := port.rising &&& compl8 portBitMask
    falling := port.falling &&& compl8 portBitMask
    pcmsk := port.pcmsk &&& compl8 portBitMask
    icrEnabled := if port.pcmsk &&& compl8 portBitMask = 0 then false else port.icrEnabled
    state := port.state }

/-- The critical-section body of `PcInt::enableInterrupt`: sets the
hardware mask bit, enables the group's interrupt source, and refreshes
only this pin's bit of the snapshot from the live port value `pv`. -/
def enableBody {C A : Type} (port : PcIntPort C A) (portBit : Fin 8) (pv : Nat) :
    PcIntPort C A :=
  let portBitMask := BV portBit.val
  { port with
    pcmsk := (port.pcmsk ||| portBitMask) % 256
    icrEnabled := true
    state := ((port.state &&& compl8 portBitMask) ||| ((pv % 256) &&& portBitMask)) % 256 }

/-- The critical-section body of `PcInt::disableInterrupt`: clears the
hardware mask bit and switches the group's interrupt source off when the
whole mask became zero. -/
def disableBody {C A : Type} (port : PcIntPort C A) (portBit : Fin 8) : PcIntPort C A :=
  let portBitMask := BV portBit.val
  { port with
    pcmsk := port.pcmsk &&& compl8 portBitMask
    icrEnabled := if port.pcmsk &&& compl8 portBitMask = 0 then false else port.icrEnabled }

namespace PcInt

/-- `PcInt::attachInterrupt(pin, func, arg, mode)`: a no-op unless
`pcicr`, `pcmsk`, the port and `func` are all non-null, otherwise it
runs `attachBody` on the pin's group under the critical section. -/
def attachInterrupt {C A : Type} (B : Board) (sys : SysState C A) (pin : Nat)
    (func : Option C) (arg : Option A) (mode : Nat) : SysState C A :=
  let info := B.pinInfo pin
  if B.mapped pin then
    match func with
    | some f =>
        Function.update sys info.group
          (attachBody (sys info.group) info.bit f arg mode (B.portValue info.group))
    | none => sys
  else sys

/-- `PcInt::detachInterrupt(pin)`: a no-op unless `pcicr`, `pcmsk` and
the port are non-null, otherwise it runs `detachBody` on the pin's
group. -/
def detachInterrupt {C A : Type} (B : Board) (sys : SysState C A) (pin : Nat) :
    SysState C A :=
  let info := B.pinInfo pin
  if B.mapped pin then
    Function.update sys info.group (detachBody (sys info.group) info.bit)
  else sys

/-- `PcInt::enableInterrupt(pin)`: a no-op unless `pcicr`, `pcmsk`, the
port and the slot's stored callback `port->funcs[portBit]` are all
non-null, otherwise it runs `enableBody` on the pin's group. -/
def enableInterrupt {C A : Type} (B : Board) (sys : SysState C A) (pin : Nat) :
    SysState C A :=
  let info := B.pinInfo pin
  if B.mapped pin ∧ ((sys info.group).funcs info.bit).isSome then
    Function.update sys info.group
      (enableBody (sys info.group) info.bit (B.portValue info.group))
  else sys

/-- `PcInt::disableInterrupt(pin)`: a no-op unless `pcicr`, `pcmsk` and
the port are non-null, otherwise it runs `disableBody` on the pin's
group. -/
def disableInterrupt {C A : Type} (B : Board) (sys : SysState C A) (pin : Nat) :
    SysState C A :=
  let info := B.pinInfo pin
  if B.mapped pin then
    Function.update sys info.group (disableBody (sys info.group) info.bit)
  else sys

end PcInt

/-! Characterization of the ISR loop. -/

theorem decide_BV_land (v n : Nat) : decide (BV n &&& v ≠ 0) = v.testBit n := by
  cases hb : v.testBit n
  · have : ¬(BV n &&& v ≠ 0) := by
      rw [BV_land_ne_zero, hb]
      simp
    simp [this]
  · simp [(BV_land_ne_zero v n).mpr hb]

theorem foldl_isrStep {C A : Type} (port : PcIntPort C A) (trigger_pins new_state : Nat)
    (l : List (Fin 8)) (acc : List (Event C A)) :
    l.foldl (isrStep port trigger_pins new_state) acc =
      acc ++ l.filterMap (isrEmit port trigger_pins new_state) := by
  induction l generalizing acc with
  | nil => simp
  | cons b t ih =>
    rw [List.foldl_cons, ih, List.filterMap_cons]
    unfold isrStep isrEmit
    by_cases h : trigger_pins &&& BV b.val ≠ 0
    · cases hf : port.funcs b <;> simp [h, hf]
    · simp [h]

theorem isrRun_events {C A : Type} (port : PcIntPort C A) (pin_register : Nat) :
    (isrRun port pin_register).2 =
      bits8.filterMap
        (isrEmit { port with state := pin_register % 256 }
          (isrTrigger port (pin_register % 256)) (pin_register % 256)) := by
  rw [isrRun]
  exact foldl_isrStep _ _ _ _ _

theorem mem_bits8 (b : Fin 8) : b ∈ bits8 := by
  fin_cases b <;> decide

/-- C1: for every port-group state and every 8-bit `new_value`, the
dispatcher's `trigger_pins` word — computed by the source as
`(state XOR new_value) AND ((rising AND new_value) OR (falling AND NOT new_value))`
(that is, `isrTrigger`) — has bit `b` set exactly when the pin's level
differs from the snapshot and its new level matches its configured edge
direction (rising bit for a new high level, falling bit for a new low
level). -/
theorem isr_trigger_bit_spec {C A : Type} (port : PcIntPort C A) (new_value : Nat)
    (hv : new_value < 256) (b : Fin 8) :
    (isrTrigger port new_value).testBit b.val = true ↔
      (port.state.testBit b.val ≠ new_value.testBit b.val ∧
        (if new_value.testBit b.val = true then port.rising.testBit b.val = true
         else port.falling.testBit b.val = true)) := by
  have hb : b.val < 8 := b.isLt
  rw [isrTrigger, testBit_mod256 _ _ hb, Nat.testBit_land, Nat.testBit_lor, Nat.testBit_xor,
    Nat.testBit_land, Nat.testBit_land, testBit_compl8 _ _ hb]
  cases hs : port.state.testBit b.val <;> cases hn : new_value.testBit b.val <;>
    cases hr : port.rising.testBit b.val <;> cases hf : port.falling.testBit b.val <;> simp

/-- Witness for C1 at a concrete state: snapshot `0b0000`, rising mask
`0b0001`, new value `0b0001`, bit 0 triggers. -/
theorem isr_trigger_bit_spec_witness :
    (1 < 256 ∧
      ((isrTrigger (PcIntPort.mk (C := Unit) (A := Unit)
          (fun _ => none) (fun _ => none) 0 1 0 0 false) 1).testBit (0 : Fin 8).val = true ↔
        ((0 : Nat).testBit (0 : Fin 8).val ≠ (1 : Nat).testBit (0 : Fin 8).val ∧
          (if (1 : Nat).testBit (0 : Fin 8).val = true then (1 : Nat).testBit (0 : Fin 8).val = true
           else (0 : Nat).testBit (0 : Fin 8).val = true)))) :=
  ⟨by decide,
    isr_trigger_bit_spec
      (PcIntPort.mk (fun _ => none) (fun _ => none) 0 1 0 0 false) 1 (by decide) 0⟩

/-- C2: one dispatcher run sets the whole 8-bit snapshot to `new_value`
unconditionally (all other port fields untouched), and the invocation
list contains, in ascending bit order, exactly one invocation for each
bit whose trigger bit is set and whose slot holds a non-empty callback —
called with the slot's stored argument and with `level` the boolean value
of that bit in `new_value`; bits with trigger clear or an empty callback
produce no invocation. -/
theorem isr_run_spec {C A : Type} (port : PcIntPort C A) (new_value : Nat)
    (hv : new_value < 256) :
    ((isrRun port new_value).1.state = new_value ∧
      (isrRun port new_value).1.funcs = port.funcs ∧
      (isrRun port new_value).1.args = port.args ∧
      (isrRun port new_value).1.rising = port.rising ∧
      (isrRun port new_value).1.falling = port.falling ∧
      (isrRun port new_value).1.pcmsk = port.pcmsk ∧
      (isrRun port new_value).1.icrEnabled = port.icrEnabled) ∧
    (∀ e ∈ (isrRun port new_value).2,
      (isrTrigger port new_value).testBit e.bit.val = true ∧
        port.funcs e.bit = some e.func ∧ e.arg = port.args e.bit ∧
        e.level = new_value.testBit e.bit.val) ∧
    (∀ b : Fin 8, (isrTrigger port new_value).testBit b.val = true →
      (port.funcs b).isSome = true → ∃ e ∈ (isrRun port new_value).2, e.bit = b) ∧
    (isrRun port new_value).2.Pairwise (fun e1 e2 => e1.bit < e2.bit) := by
  have hmod : new_value % 256 = new_value := Nat.mod_eq_of_lt hv
  refine ⟨?_, ?_, ?_, ?_⟩
  · rw [isrRun]
    exact ⟨hmod, rfl, rfl, rfl, rfl, rfl, rfl⟩
  · intro e he
    rw [isrRun_events, hmod] at he
    obtain ⟨nr, _, hemit⟩ := List.mem_filterMap.mp he
    rw [isrEmit] at hemit
    split at hemit
    · next hcond =>
      obtain ⟨f, hf, hfe⟩ := Option.map_eq_some'.mp hemit
      subst hfe
      exact ⟨(land_BV_ne_zero _ _).mp hcond, hf, rfl, decide_BV_land _ _⟩
    · exact absurd hemit (by simp)
  · intro b hb hf
    obtain ⟨f, hf'⟩ := Option.isSome_iff_exists.mp hf
    refine ⟨⟨b, f, port.args b, decide (BV b.val &&& new_value ≠ 0)⟩, ?_, rfl⟩
    rw [isrRun_events, hmod]
    refine List.mem_filterMap.mpr ⟨b, mem_bits8 b, ?_⟩
    rw [isrEmit, if_pos ((land_BV_ne_zero _ _).mpr hb)]
    show (port.funcs b).map _ = _
    rw [hf']
    rfl
  · rw [isrRun_events, hmod]
    have hp : List.Pairwise (fun a b : Fin 8 => a < b) bits8 := by decide
    refine hp.filterMap _ ?_
    · intro a b hab x hx y hy
      have hxa : x.bit = a := by
        rw [isrEmit] at hx
        split at hx
        · obtain ⟨f, _, hfe⟩ := Option.map_eq_some'.mp hx
          subst hfe
          rfl
        · exact absurd hx (by simp)
      have hyb : y.bit = b := by
        rw [isrEmit] at hy
        split at hy
        · obtain ⟨f, _, hfe⟩ := Option.map_eq_some'.mp hy
          subst hfe
          rfl
        · exact absurd hy (by simp)
      rw [hxa, hyb]
      exact hab

/-- Concrete port-group state for witnesses: slot 0 holds callback `7`
with a rising mode bit, snapshot `0`, hardware mask bit 0 set. -/
def wPort0 : PcIntPort Nat Nat :=
  { funcs := fun b => if b = 0 then some 7 else none
    args := fun _ => none
    state := 0
    rising := 1
    falling := 0
    pcmsk := 1
    icrEnabled := true }

/-- Witness for C2 at a concrete state: slot 0 holds a callback with a
rising mode bit, snapshot `0`, reading `1`; exactly one invocation with
`level = true` results and the snapshot becomes `1`. -/
theorem isr_run_spec_witness :
    (1 < 256 ∧
      (((isrRun wPort0 1).1.state = 1 ∧
        (isrRun wPort0 1).1.funcs = wPort0.funcs ∧
        (isrRun wPort0 1).1.args = wPort0.args ∧
        (isrRun wPort0 1).1.rising = wPort0.rising ∧
        (isrRun wPort0 1).1.falling = wPort0.falling ∧
        (isrRun wPort0 1).1.pcmsk = wPort0.pcmsk ∧
        (isrRun wPort0 1).1.icrEnabled = wPort0.icrEnabled) ∧
      (∀ e ∈ (isrRun wPort0 1).2,
        (isrTrigger wPort0 1).testBit e.bit.val = true ∧
          wPort0.funcs e.bit = some e.func ∧ e.arg = wPort0.args e.bit ∧
          e.level = (1 : Nat).testBit e.bit.val) ∧
      (∀ b : Fin 8, (isrTrigger wPort0 1).testBit b.val = true →
        (wPort0.funcs b).isSome = true → ∃ e ∈ (isrRun wPort0 1).2, e.bit = b) ∧
      (isrRun wPort0 1).2.Pairwise (fun e1 e2 => e1.bit < e2.bit))) :=
  ⟨by decide, isr_run_spec wPort0 1 (by decide)⟩

/-! Effects of the registration bodies on single bits. -/

theorem attachBody_effect {C A : Type} (p : PcIntPort C A) (b : Fin 8) (f : C)
    (arg : Option A) (mode pv : Nat) :
    (attachBody p b f arg mode pv).funcs b = some f ∧
    (attachBody p b f arg mode pv).args b = arg ∧
    ((attachBody p b f arg mode pv).rising.testBit b.val = true ↔
      (mode = RISING ∨ mode = CHANGE)) ∧
    ((attachBody p b f arg mode pv).falling.testBit b.val = true ↔
      (mode = FALLING ∨ mode = CHANGE)) ∧
    (attachBody p b f arg mode pv).pcmsk.testBit b.val = true ∧
    (attachBody p b f arg mode pv).icrEnabled = true := by
  have hb : b.val < 8 := b.isLt
  unfold attachBody
  dsimp only
  refine ⟨by simp, by simp, ?_, ?_, ?_, rfl⟩
  · by_cases hmc : mode = RISING ∨ mode = CHANGE
    · rw [if_pos hmc, testBit_mod256 _ _ hb, Nat.testBit_lor, testBit_BV]
      simp [hmc]
    · rw [if_neg hmc, testBit_mod256 _ _ hb, Nat.testBit_land, testBit_compl8 _ _ hb, testBit_BV]
      simp [hmc]
  · by_cases hmc : mode = FALLING ∨ mode = CHANGE
    · rw [if_pos hmc, testBit_mod256 _ _ hb, Nat.testBit_lor, testBit_BV]
      simp [hmc]
    · rw [if_neg hmc, testBit_mod256 _ _ hb, Nat.testBit_land, testBit_compl8 _ _ hb, testBit_BV]
      simp [hmc]
  · rw [testBit_mod256 _ _ hb, Nat.testBit_lor, testBit_BV]
    simp

/-- C3: for a mapped pin, a non-empty callback and a mode in
`{RISING, FALLING, CHANGE}`, `PcInt::attachInterrupt` stores the callback
and user argument in the pin's slot, sets the group's rising bit for that
position iff the mode is RISING or CHANGE (clearing it otherwise), sets
the falling bit iff the mode is FALLING or CHANGE (clearing it
otherwise), sets the hardware mask bit, and enables the group's interrupt
source. -/
theorem attach_interrupt_spec {C A : Type} (B : Board) (sys : SysState C A) (pin : Nat)
    (f : C) (arg : Option A) (mode : Nat) (hm : B.mapped pin)
    (hmode : mode = RISING ∨ mode = FALLING ∨ mode = CHANGE) :
    (PcInt.attachInterrupt B sys pin (some f) arg mode (B.pinInfo pin).group).funcs
        (B.pinInfo pin).bit = some f ∧
    (PcInt.attachInterrupt B sys pin (some f) arg mode (B.pinInfo pin).group).args
        (B.pinInfo pin).bit = arg ∧
    ((PcInt.attachInterrupt B sys pin (some f) arg mode (B.pinInfo pin).group).rising.testBit
        (B.pinInfo pin).bit.val = true ↔ (mode = RISING ∨ mode = CHANGE)) ∧
    ((PcInt.attachInterrupt B sys pin (some f) arg mode (B.pinInfo pin).group).falling.testBit
        (B.pinInfo pin).bit.val = true ↔ (mode = FALLING ∨ mode = CHANGE)) ∧
    (PcInt.attachInterrupt B sys pin (some f) arg mode (B.pinInfo pin).group).pcmsk.testBit
        (B.pinInfo pin).bit.val = true ∧
    (PcInt.attachInterrupt B sys pin (some f) arg mode (B.pinInfo pin).group).icrEnabled
      = true := by
  have h := attachBody_effect (sys (B.pinInfo pin).group) (B.pinInfo pin).bit f arg mode
    (B.portValue (B.pinInfo pin).group)
  rw [PcInt.attachInterrupt] at *
  simp only [if_pos hm, Function.update_same]
  exact h

/-- Concrete board for witnesses: pin 0 resolves to group 0 bit 0, pin 2
resolves to group 0 bit 1, every other pin is unmapped; only group 0 is
supported; the live value of every port register is 1. -/
def wBoard : Board :=
  { pinInfo := fun pin =>
      if pin = 0 then ⟨true, true, 0, 0⟩
      else if pin = 2 then ⟨true, true, 0, 1⟩
      else ⟨false, false, 0, 0⟩
    supported := fun g => g == 0
    portValue := fun _ => 1 }

/-- Concrete system state for witnesses: every group is in state
`wPort0`. -/
def wSys : SysState Nat Nat := fun _ => wPort0

/-- Witness for C3: attaching callback `5` with mode `FALLING` on pin 0
of the concrete board. -/
theorem attach_interrupt_spec_witness :
    (wBoard.mapped 0 ∧ (FALLING = RISING ∨ FALLING = FALLING ∨ FALLING = CHANGE) ∧
      ((PcInt.attachInterrupt wBoard wSys 0 (some 5) none FALLING
          (wBoard.pinInfo 0).group).funcs (wBoard.pinInfo 0).bit = some 5 ∧
       (PcInt.attachInterrupt wBoard wSys 0 (some 5) none FALLING
          (wBoard.pinInfo 0).group).args (wBoard.pinInfo 0).bit = none ∧
       ((PcInt.attachInterrupt wBoard wSys 0 (some 5) none FALLING
          (wBoard.pinInfo 0).group).rising.testBit (wBoard.pinInfo 0).bit.val = true ↔
         (FALLING = RISING ∨ FALLING = CHANGE)) ∧
       ((PcInt.attachInterrupt wBoard wSys 0 (some 5) none FALLING
          (wBoard.pinInfo 0).group).falling.testBit (wBoard.pinInfo 0).bit.val = true ↔
         (FALLING = FALLING ∨ FALLING = CHANGE)) ∧
       (PcInt.attachInterrupt wBoard wSys 0 (some 5) none FALLING
          (wBoard.pinInfo 0).group).pcmsk.testBit (wBoard.pinInfo 0).bit.val = true ∧
       (PcInt.attachInterrupt wBoard wSys 0 (some 5) none FALLING
          (wBoard.pinInfo 0).group).icrEnabled = true)) :=
  ⟨by decide, by decide,
    attach_interrupt_spec wBoard wSys 0 5 none FALLING (by decide) (by decide)⟩

/-! Snapshot-refresh frame conditions. -/

theorem stateWrite_testBit (st pv : Nat) (b i : Fin 8) :
    (((st &&& compl8 (BV b.val)) ||| ((pv % 256) &&& BV b.val)) % 256).testBit i.val =
      if i = b then pv.testBit i.val else st.testBit i.val := by
  have hi : i.val < 8 := i.isLt
  rw [testBit_mod256 _ _ hi, Nat.testBit_lor, Nat.testBit_land, Nat.testBit_land,
    testBit_compl8 _ _ hi, testBit_BV, testBit_mod256 _ _ hi]
  by_cases h : i = b
  · subst h
    simp
  · have hne : b.val ≠ i.val := fun hv => h (Fin.ext hv.symm)
    simp [h, hne]

theorem attachBody_state_frame {C A : Type} (p : PcIntPort C A) (b : Fin 8) (f : C)
    (arg : Option A) (mode pv : Nat) (i : Fin 8) :
    (attachBody p b f arg mode pv).state.testBit i.val =
      if i = b then pv.testBit i.val else p.state.testBit i.val := by
  unfold attachBody
  dsimp only
  exact stateWrite_testBit p.state pv b i

theorem enableBody_state_frame {C A : Type} (p : PcIntPort C A) (b : Fin 8) (pv : Nat)
    (i : Fin 8) :
    (enableBody p b pv).state.testBit i.val =
      if i = b then pv.testBit i.val else p.state.testBit i.val := by
  unfold enableBody
  dsimp only
  exact stateWrite_testBit p.state pv b i

/-- C5: when they take effect, both `PcInt::attachInterrupt` and
`PcInt::enableInterrupt` refresh only the resolved bit of the group's
snapshot `state` from the live port value, and leave the other seven bits
of the snapshot unchanged.  Attach takes effect on every mapped pin with
a non-null callback (empty slot included); enable additionally requires
the slot to hold a callback, so that part sits under its own
hypothesis. -/
theorem snapshot_frame_spec {C A : Type} (B : Board) (sys : SysState C A) (pin : Nat)
    (f : C) (arg : Option A) (mode : Nat) (hm : B.mapped pin) :
    (∀ i : Fin 8, i ≠ (B.pinInfo pin).bit →
      (PcInt.attachInterrupt B sys pin (some f) arg mode (B.pinInfo pin).group).state.testBit
          i.val = (sys (B.pinInfo pin).group).state.testBit i.val) ∧
    (PcInt.attachInterrupt B sys pin (some f) arg mode (B.pinInfo pin).group).state.testBit
        (B.pinInfo pin).bit.val
      = (B.portValue (B.pinInfo pin).group).testBit (B.pinInfo pin).bit.val ∧
    (((sys (B.pinInfo pin).group).funcs (B.pinInfo pin).bit).isSome = true →
      (∀ i : Fin 8, i ≠ (B.pinInfo pin).bit →
        (PcInt.enableInterrupt B sys pin (B.pinInfo pin).group).state.testBit i.val
          = (sys (B.pinInfo pin).group).state.testBit i.val) ∧
      (PcInt.enableInterrupt B sys pin (B.pinInfo pin).group).state.testBit
          (B.pinInfo pin).bit.val
        = (B.portValue (B.pinInfo pin).group).testBit (B.pinInfo pin).bit.val) := by
  rw [PcInt.attachInterrupt]
  simp only [if_pos hm, Function.update_same]
  refine ⟨?_, ?_, fun hen => ?_⟩
  · intro i hi
    rw [attachBody_state_frame, if_neg hi]
  · rw [attachBody_state_frame, if_pos rfl]
  · rw [PcInt.enableInterrupt]
    simp only [if_pos (show B.mapped pin ∧ _ from ⟨hm, hen⟩), Function.update_same]
    constructor
    · intro i hi
      rw [enableBody_state_frame, if_neg hi]
    · rw [enableBody_state_frame, if_pos rfl]

/-- Witness for C5 on the concrete board: the attach part is applied at
pin 2 (group 0, bit 1, whose slot is empty in `wSys` — the first-attach
case), and the enable part at pin 0 (group 0, bit 0, whose slot holds a
callback, discharging the inner hypothesis). -/
theorem snapshot_frame_spec_witness :
    (wBoard.mapped 2 ∧
      (∀ i : Fin 8, i ≠ (wBoard.pinInfo 2).bit →
        (PcInt.attachInterrupt wBoard wSys 2 (some 5) none CHANGE (wBoard.pinInfo 2).group).state.testBit
            i.val = (wSys (wBoard.pinInfo 2).group).state.testBit i.val) ∧
      (PcInt.attachInterrupt wBoard wSys 2 (some 5) none CHANGE (wBoard.pinInfo 2).group).state.testBit
          (wBoard.pinInfo 2).bit.val
        = (wBoard.portValue (wBoard.pinInfo 2).group).testBit (wBoard.pinInfo 2).bit.val) ∧
    (wBoard.mapped 0 ∧
      ((wSys (wBoard.pinInfo 0).group).funcs (wBoard.pinInfo 0).bit).isSome = true ∧
      ((∀ i : Fin 8, i ≠ (wBoard.pinInfo 0).bit →
        (PcInt.enableInterrupt wBoard wSys 0 (wBoard.pinInfo 0).group).state.testBit i.val
          = (wSys (wBoard.pinInfo 0).group).state.testBit i.val) ∧
      (PcInt.enableInterrupt wBoard wSys 0 (wBoard.pinInfo 0).group).state.testBit
          (wBoard.pinInfo 0).bit.val
        = (wBoard.portValue (wBoard.pinInfo 0).group).testBit (wBoard.pinInfo 0).bit.val)) :=
  ⟨⟨by decide, (snapshot_frame_spec wBoard wSys 2 5 none CHANGE (by decide)).1,
      (snapshot_frame_spec wBoard wSys 2 5 none CHANGE (by decide)).2.1⟩,
    by decide, by decide,
    (snapshot_frame_spec wBoard wSys 0 5 none CHANGE (by decide)).2.2 (by decide)⟩

/-! Effects of `PcInt::detachInterrupt`. -/

theorem detachBody_effect {C A : Type} (p : PcIntPort C A) (b : Fin 8) :
    (detachBody p b).funcs b = none ∧
    (detachBody p b).args b = none ∧
    (detachBody p b).rising.testBit b.val = false ∧
    (detachBody p b).falling.testBit b.val = false ∧
    (detachBody p b).pcmsk.testBit b.val = false ∧
    (detachBody p b).icrEnabled =
      (if (detachBody p b).pcmsk = 0 then false else p.icrEnabled) := by
  have hb : b.val < 8 := b.isLt
  unfold detachBody
  dsimp only
  refine ⟨by simp, by simp, ?_, ?_, ?_, rfl⟩ <;>
    rw [Nat.testBit_land, testBit_compl8 _ _ hb, testBit_BV] <;> simp

/-- C7: for a mapped pin, `PcInt::detachInterrupt` clears the slot's
callback and user argument and clears the group's rising, falling and
hardware mask bits at that position; the group's interrupt source ends up
disabled by the call exactly when the hardware mask became entirely zero
(otherwise it is left as it was). -/
theorem detach_interrupt_spec {C A : Type} (B : Board) (sys : SysState C A) (pin : Nat)
    (hm : B.mapped pin) :
    (PcInt.detachInterrupt B sys pin (B.pinInfo pin).group).funcs (B.pinInfo pin).bit
        = none ∧
    (PcInt.detachInterrupt B sys pin (B.pinInfo pin).group).args (B.pinInfo pin).bit
        = none ∧
    (PcInt.detachInterrupt B sys pin (B.pinInfo pin).group).rising.testBit
        (B.pinInfo pin).bit.val = false ∧
    (PcInt.detachInterrupt B sys pin (B.pinInfo pin).group).falling.testBit
        (B.pinInfo pin).bit.val = false ∧
    (PcInt.detachInterrupt B sys pin (B.pinInfo pin).group).pcmsk.testBit
        (B.pinInfo pin).bit.val = false ∧
    (PcInt.detachInterrupt B sys pin (B.pinInfo pin).group).icrEnabled =
      (if (PcInt.detachInterrupt B sys pin (B.pinInfo pin).group).pcmsk = 0 then false
       else (sys (B.pinInfo pin).group).icrEnabled) := by
  have h := detachBody_effect (sys (B.pinInfo pin).group) (B.pinInfo pin).bit
  rw [PcInt.detachInterrupt] at *
  simp only [if_pos hm, Function.update_same]
  exact h

/-- Witness for C7: detaching pin 0 on the concrete board (the mask
becomes zero, so the interrupt source is switched off). -/
theorem detach_interrupt_spec_witness :
    (wBoard.mapped 0 ∧
      ((PcInt.detachInterrupt wBoard wSys 0 (wBoard.pinInfo 0).group).funcs
          (wBoard.pinInfo 0).bit = none ∧
       (PcInt.detachInterrupt wBoard wSys 0 (wBoard.pinInfo 0).group).args
          (wBoard.pinInfo 0).bit = none ∧
       (PcInt.detachInterrupt wBoard wSys 0 (wBoard.pinInfo 0).group).rising.testBit
          (wBoard.pinInfo 0).bit.val = false ∧
       (PcInt.detachInterrupt wBoard wSys 0 (wBoard.pinInfo 0).group).falling.testBit
          (wBoard.pinInfo 0).bit.val = false ∧
       (PcInt.detachInterrupt wBoard wSys 0 (wBoard.pinInfo 0).group).pcmsk.testBit
          (wBoard.pinInfo 0).bit.val = false ∧
       (PcInt.detachInterrupt wBoard wSys 0 (wBoard.pinInfo 0).group).icrEnabled =
         (if (PcInt.detachInterrupt wBoard wSys 0 (wBoard.pinInfo 0).group).pcmsk = 0
          then false else (wSys (wBoard.pinInfo 0).group).icrEnabled))) :=
  ⟨by decide, detach_interrupt_spec wBoard wSys 0 (by decide)⟩

/-- C8: for a mapped pin whose slot holds a callback,
`PcInt::disableInterrupt` followed by `PcInt::enableInterrupt` (with no
intervening attach) restores delivery (hardware mask bit set, interrupt
source enabled) with exactly the callback, user argument, rising mask and
falling mask that were in effect before the disable: disable leaves all
four slot fields unchanged and enable modifies none of them. -/
theorem disable_enable_roundtrip {C A : Type} (B : Board) (sys : SysState C A) (pin : Nat)
    (hm : B.mapped pin)
    (hf : ((sys (B.pinInfo pin).group).funcs (B.pinInfo pin).bit).isSome = true) :
    ((PcInt.disableInterrupt B sys pin (B.pinInfo pin).group).funcs
        = (sys (B.pinInfo pin).group).funcs ∧
     (PcInt.disableInterrupt B sys pin (B.pinInfo pin).group).args
        = (sys (B.pinInfo pin).group).args ∧
     (PcInt.disableInterrupt B sys pin (B.pinInfo pin).group).rising
        = (sys (B.pinInfo pin).group).rising ∧
     (PcInt.disableInterrupt B sys pin (B.pinInfo pin).group).falling
        = (sys (B.pinInfo pin).group).falling) ∧
    ((PcInt.enableInterrupt B (PcInt.disableInterrupt B sys pin) pin
          (B.pinInfo pin).group).funcs = (sys (B.pinInfo pin).group).funcs ∧
     (PcInt.enableInterrupt B (PcInt.disableInterrupt B sys pin) pin
          (B.pinInfo pin).group).args = (sys (B.pinInfo pin).group).args ∧
     (PcInt.enableInterrupt B (PcInt.disableInterrupt B sys pin) pin
          (B.pinInfo pin).group).rising = (sys (B.pinInfo pin).group).rising ∧
     (PcInt.enableInterrupt B (PcInt.disableInterrupt B sys pin) pin
          (B.pinInfo pin).group).falling = (sys (B.pinInfo pin).group).falling) ∧
    (PcInt.enableInterrupt B (PcInt.disableInterrupt B sys pin) pin
        (B.pinInfo pin).group).pcmsk.testBit (B.pinInfo pin).bit.val = true ∧
    (PcInt.enableInterrupt B (PcInt.disableInterrupt B sys pin) pin
        (B.pinInfo pin).group).icrEnabled = true := by
  have hb : (B.pinInfo pin).bit.val < 8 := (B.pinInfo pin).bit.isLt
  rw [PcInt.disableInterrupt, PcInt.enableInterrupt]
  simp only [if_pos hm, Function.update_same]
  have hf1 : ((disableBody (sys (B.pinInfo pin).group) (B.pinInfo pin).bit).funcs
      (B.pinInfo pin).bit).isSome = true := hf
  simp only [if_pos (show B.mapped pin ∧ _ from ⟨hm, hf1⟩), Function.update_same]
  refine ⟨⟨rfl, rfl, rfl, rfl⟩, ⟨rfl, rfl, rfl, rfl⟩, ?_, rfl⟩
  rw [enableBody, disableBody]
  dsimp only
  rw [testBit_mod256 _ _ hb, Nat.testBit_lor, testBit_BV]
  simp

/-- Witness for C8: disable then enable of pin 0 on the concrete board. -/
theorem disable_enable_roundtrip_witness :
    (wBoard.mapped 0 ∧
      ((wSys (wBoard.pinInfo 0).group).funcs (wBoard.pinInfo 0).bit).isSome = true ∧
      (((PcInt.disableInterrupt wBoard wSys 0 (wBoard.pinInfo 0).group).funcs
          = (wSys (wBoard.pinInfo 0).group).funcs ∧
        (PcInt.disableInterrupt wBoard wSys 0 (wBoard.pinInfo 0).group).args
          = (wSys (wBoard.pinInfo 0).group).args ∧
        (PcInt.disableInterrupt wBoard wSys 0 (wBoard.pinInfo 0).group).rising
          = (wSys (wBoard.pinInfo 0).group).rising ∧
        (PcInt.disableInterrupt wBoard wSys 0 (wBoard.pinInfo 0).group).falling
          = (wSys (wBoard.pinInfo 0).group).falling) ∧
      (((PcInt.enableInterrupt wBoard (PcInt.disableInterrupt wBoard wSys 0) 0
            (wBoard.pinInfo 0).group).funcs = (wSys (wBoard.pinInfo 0).group).funcs ∧
        (PcInt.enableInterrupt wBoard (PcInt.disableInterrupt wBoard wSys 0) 0
            (wBoard.pinInfo 0).group).args = (wSys (wBoard.pinInfo 0).group).args ∧
        (PcInt.enableInterrupt wBoard (PcInt.disableInterrupt wBoard wSys 0) 0
            (wBoard.pinInfo 0).group).rising = (wSys (wBoard.pinInfo 0).group).rising ∧
        (PcInt.enableInterrupt wBoard (PcInt.disableInterrupt wBoard wSys 0) 0
            (wBoard.pinInfo 0).group).falling = (wSys (wBoard.pinInfo 0).group).falling)) ∧
      (PcInt.enableInterrupt wBoard (PcInt.disableInterrupt wBoard wSys 0) 0
          (wBoard.pinInfo 0).group).pcmsk.testBit (wBoard.pinInfo 0).bit.val = true ∧
      (PcInt.enableInterrupt wBoard (PcInt.disableInterrupt wBoard wSys 0) 0
          (wBoard.pinInfo 0).group).icrEnabled = true)) :=
  ⟨by decide, by decide, disable_enable_roundtrip wBoard wSys 0 (by decide) (by decide)⟩

/-- C6: on a pin whose resolution fails (null `pcicr`, null `pcmsk` or
unsupported group), every operation returns the system state unchanged;
so does an attach whose callback is the null pointer, and an enable on a
slot whose stored callback is null.  None of the operations has an error
channel (they return only the new state), so no error is signalled. -/
theorem silent_noop_spec {C A : Type} (B : Board) (sys : SysState C A) (pin : Nat)
    (func : Option C) (arg : Option A) (mode : Nat) :
    (¬ B.mapped pin →
      PcInt.attachInterrupt B sys pin func arg mode = sys ∧
      PcInt.detachInterrupt B sys pin = sys ∧
      PcInt.enableInterrupt B sys pin = sys ∧
      PcInt.disableInterrupt B sys pin = sys) ∧
    PcInt.attachInterrupt B sys pin none arg mode = sys ∧
    (((sys (B.pinInfo pin).group).funcs (B.pinInfo pin).bit = none) →
      PcInt.enableInterrupt B sys pin = sys) := by
  refine ⟨fun hm => ⟨?_, ?_, ?_, ?_⟩, ?_, fun hf => ?_⟩
  · rw [PcInt.attachInterrupt.eq_def]
    simp only [if_neg hm]
  · rw [PcInt.detachInterrupt]
    simp only [if_neg hm]
  · rw [PcInt.enableInterrupt]
    have : ¬(B.mapped pin ∧ ((sys (B.pinInfo pin).group).funcs (B.pinInfo pin).bit).isSome
        = true) := fun h => hm h.1
    simp only [if_neg this]
  · rw [PcInt.disableInterrupt]
    simp only [if_neg hm]
  · rw [PcInt.attachInterrupt.eq_def]
    by_cases hm : B.mapped pin <;> simp [hm]
  · rw [PcInt.enableInterrupt]
    have : ¬(B.mapped pin ∧ ((sys (B.pinInfo pin).group).funcs (B.pinInfo pin).bit).isSome
        = true) := by
      rw [hf]
      simp
    simp only [if_neg this]

/-- Witness for C6: pin 9 is unmapped on the concrete board, and pin 2
resolves to bit 1 whose slot is empty in `wSys`. -/
theorem silent_noop_spec_witness :
    ((¬ wBoard.mapped 9 ∧
       (PcInt.attachInterrupt wBoard wSys 9 (some 5) none CHANGE = wSys ∧
        PcInt.detachInterrupt wBoard wSys 9 = wSys ∧
        PcInt.enableInterrupt wBoard wSys 9 = wSys ∧
        PcInt.disableInterrupt wBoard wSys 9 = wSys)) ∧
     PcInt.attachInterrupt wBoard wSys 9 none none CHANGE = wSys ∧
     ((wSys (wBoard.pinInfo 2).group).funcs (wBoard.pinInfo 2).bit = none ∧
       PcInt.enableInterrupt wBoard wSys 2 = wSys)) :=
  ⟨⟨by decide, (silent_noop_spec wBoard wSys 9 (some 5) none CHANGE).1 (by decide)⟩,
    (silent_noop_spec wBoard wSys 9 none none CHANGE).2.1,
    ⟨by decide, (silent_noop_spec wBoard wSys 2 none none CHANGE).2.2 (by decide)⟩⟩

/-- C9: every port group starts with all eight callbacks null, all eight
user arguments null, snapshot `state` 0 and both edge masks 0 (the static
`PcIntPort` objects are zero-initialized and their constructor then sets
`funcs`, `state`, `rising`, `falling` explicitly), before any
registration operation runs. -/
theorem pcIntPort_init_spec (C A : Type) :
    (∀ b : Fin 8, (PcIntPort.init C A).funcs b = none) ∧
    (∀ b : Fin 8, (PcIntPort.init C A).args b = none) ∧
    (PcIntPort.init C A).state = 0 ∧
    (PcIntPort.init C A).rising = 0 ∧
    (PcIntPort.init C A).falling = 0 :=
  ⟨fun _ => rfl, fun _ => rfl, rfl, rfl, rfl⟩

/-! Slots whose mode bits are both clear can never trigger. -/

theorem isrTrigger_bit_false {C A : Type} (p : PcIntPort C A) (v : Nat) (b : Fin 8)
    (hr : p.rising.testBit b.val = false) (hf : p.falling.testBit b.val = false) :
    (isrTrigger p v).testBit b.val = false := by
  rw [isrTrigger, testBit_mod256 _ _ b.isLt, Nat.testBit_land, Nat.testBit_lor,
    Nat.testBit_land, Nat.testBit_land, hr, hf]
  simp

theorem isrRun_no_event_at {C A : Type} (p : PcIntPort C A) (r : Nat) (b : Fin 8)
    (hr : p.rising.testBit b.val = false) (hf : p.falling.testBit b.val = false) :
    ∀ e ∈ (isrRun p r).2, e.bit ≠ b := by
  intro e he hbe
  rw [isrRun_events] at he
  obtain ⟨nr, _, hemit⟩ := List.mem_filterMap.mp he
  rw [isrEmit] at hemit
  split at hemit
  · next hcond =>
    obtain ⟨f, _, hfe⟩ := Option.map_eq_some'.mp hemit
    subst hfe
    have ht := (land_BV_ne_zero _ _).mp hcond
    have hnb : nr = b := hbe
    subst hnb
    rw [isrTrigger_bit_false _ _ _ hr hf] at ht
    exact absurd ht (by simp)
  · exact absurd hemit (by simp)

theorem dispatchMany_no_event_at {C A : Type} (rs : List Nat) (p : PcIntPort C A)
    (b : Fin 8) (hr : p.rising.testBit b.val = false)
    (hf : p.falling.testBit b.val = false) :
    ∀ e ∈ (dispatchMany p rs).2, e.bit ≠ b := by
  induction rs generalizing p with
  | nil =>
    intro e he
    rw [dispatchMany] at he
    exact absurd he (by simp)
  | cons r rs ih =>
    intro e he
    rw [dispatchMany] at he
    rcases List.mem_append.mp he with h | h
    · exact isrRun_no_event_at p r b hr hf e h
    · exact ih (isrRun p r).1 hr hf e h

/-- C10: for a mapped pin and non-empty callback, `PcInt::attachInterrupt`
with a mode outside `{RISING, FALLING, CHANGE}` still stores the callback
and argument and sets the hardware mask bit, but clears both mode bits at
that position, so no sequence of subsequent dispatcher runs ever produces
an invocation for that slot (its trigger bit is always zero). -/
theorem attach_bad_mode_spec {C A : Type} (B : Board) (sys : SysState C A) (pin : Nat)
    (f : C) (arg : Option A) (mode : Nat) (hm : B.mapped pin)
    (hmode : mode ≠ RISING ∧ mode ≠ FALLING ∧ mode ≠ CHANGE) :
    (PcInt.attachInterrupt B sys pin (some f) arg mode (B.pinInfo pin).group).funcs
        (B.pinInfo pin).bit = some f ∧
    (PcInt.attachInterrupt B sys pin (some f) arg mode (B.pinInfo pin).group).args
        (B.pinInfo pin).bit = arg ∧
    (PcInt.attachInterrupt B sys pin (some f) arg mode (B.pinInfo pin).group).pcmsk.testBit
        (B.pinInfo pin).bit.val = true ∧
    (PcInt.attachInterrupt B sys pin (some f) arg mode (B.pinInfo pin).group).rising.testBit
        (B.pinInfo pin).bit.val = false ∧
    (PcInt.attachInterrupt B sys pin (some f) arg mode (B.pinInfo pin).group).falling.testBit
        (B.pinInfo pin).bit.val = false ∧
    (∀ rs : List Nat, ∀ e ∈ (dispatchMany
        (PcInt.attachInterrupt B sys pin (some f) arg mode (B.pinInfo pin).group) rs).2,
      e.bit ≠ (B.pinInfo pin).bit) := by
  have h := attachBody_effect (sys (B.pinInfo pin).group) (B.pinInfo pin).bit f arg mode
    (B.portValue (B.pinInfo pin).group)
  have hrise : (attachBody (sys (B.pinInfo pin).group) (B.pinInfo pin).bit f arg mode
      (B.portValue (B.pinInfo pin).group)).rising.testBit (B.pinInfo pin).bit.val = false := by
    rcases hb : (attachBody (sys (B.pinInfo pin).group) (B.pinInfo pin).bit f arg mode
        (B.portValue (B.pinInfo pin).group)).rising.testBit (B.pinInfo pin).bit.val
    · rfl
    · rcases h.2.2.1.mp hb with hc | hc
      · exact absurd hc hmode.1
      · exact absurd hc hmode.2.2
  have hfall : (attachBody (sys (B.pinInfo pin).group) (B.pinInfo pin).bit f arg mode
      (B.portValue (B.pinInfo pin).group)).falling.testBit (B.pinInfo pin).bit.val = false := by
    rcases hb : (attachBody (sys (B.pinInfo pin).group) (B.pinInfo pin).bit f arg mode
        (B.portValue (B.pinInfo pin).group)).falling.testBit (B.pinInfo pin).bit.val
    · rfl
    · rcases h.2.2.2.1.mp hb with hc | hc
      · exact absurd hc hmode.2.1
      · exact absurd hc hmode.2.2
  rw [PcInt.attachInterrupt] at *
  simp only [if_pos hm, Function.update_same]
  exact ⟨h.1, h.2.1, h.2.2.2.2.1, hrise, hfall,
    fun rs => dispatchMany_no_event_at rs _ _ hrise hfall⟩

/-- Witness for C10: attaching with mode value 0 (the Arduino `LOW`
constant, not a valid edge mode) on pin 0 of the concrete board, checked
over the dispatch sequence `[255, 0]`. -/
theorem attach_bad_mode_spec_witness :
    (wBoard.mapped 0 ∧ ((0 : Nat) ≠ RISING ∧ (0 : Nat) ≠ FALLING ∧ (0 : Nat) ≠ CHANGE) ∧
      ((PcInt.attachInterrupt wBoard wSys 0 (some 5) none 0 (wBoard.pinInfo 0).group).funcs
          (wBoard.pinInfo 0).bit = some 5 ∧
       (PcInt.attachInterrupt wBoard wSys 0 (some 5) none 0 (wBoard.pinInfo 0).group).args
          (wBoard.pinInfo 0).bit = none ∧
       (PcInt.attachInterrupt wBoard wSys 0 (some 5) none 0
          (wBoard.pinInfo 0).group).pcmsk.testBit (wBoard.pinInfo 0).bit.val = true ∧
       (PcInt.attachInterrupt wBoard wSys 0 (some 5) none 0
          (wBoard.pinInfo 0).group).rising.testBit (wBoard.pinInfo 0).bit.val = false ∧
       (PcInt.attachInterrupt wBoard wSys 0 (some 5) none 0
          (wBoard.pinInfo 0).group).falling.testBit (wBoard.pinInfo 0).bit.val = false ∧
       (∀ e ∈ (dispatchMany
          (PcInt.attachInterrupt wBoard wSys 0 (some 5) none 0 (wBoard.pinInfo 0).group)
          [255, 0]).2, e.bit ≠ (wBoard.pinInfo 0).bit))) :=
  ⟨by decide, by decide,
    (attach_bad_mode_spec wBoard wSys 0 5 none 0 (by decide) (by decide)).1,
    (attach_bad_mode_spec wBoard wSys 0 5 none 0 (by decide) (by decide)).2.1,
    (attach_bad_mode_spec wBoard wSys 0 5 none 0 (by decide) (by decide)).2.2.1,
    (attach_bad_mode_spec wBoard wSys 0 5 none 0 (by decide) (by decide)).2.2.2.1,
    (attach_bad_mode_spec wBoard wSys 0 5 none 0 (by decide) (by decide)).2.2.2.2.1,
    (attach_bad_mode_spec wBoard wSys 0 5 none 0 (by decide) (by decide)).2.2.2.2.2 [255, 0]⟩

/-! Interleaving model for the critical section
`WITHOUT_INTERRUPTION(CODE)`, i.e.
`{uint8_t sreg = SREG; noInterrupts(); {CODE} SREG = sreg;}`.
The foreground update is decomposed into micro-steps (one per C++
statement); the dispatcher may preempt the foreground only at a step
boundary where the global interrupt flag is on. -/

/-- One foreground micro-step: saving `SREG` and executing
`noInterrupts()`, a single mutation of the port-group state, or
restoring `SREG`. -/
inductive FgStep (C A : Type) where
  | saveAndCli
  | write (w : PcIntPort C A → PcIntPort C A)
  | restoreSreg

/-- Foreground execution state: the port-group state, the saved `sreg`
local, and the global interrupt-enable flag (the `I` bit of `SREG`). -/
structure ExecState (C A : Type) where
  port : PcIntPort C A
  sreg : Bool
  irqOn : Bool

/-- Effect of one foreground micro-step. -/
def fgStepRun {C A : Type} : FgStep C A → ExecState C A → ExecState C A
  | .saveAndCli, e => { e with sreg := e.irqOn, irqOn := false }
  | .write w, e => { e with port := w e.port }
  | .restoreSreg, e => { e with irqOn := e.sreg }

/-- Run a list of foreground micro-steps in order. -/
def fgRun {C A : Type} (l : List (FgStep C A)) (e : ExecState C A) : ExecState C A :=
  l.foldl (fun a s => fgStepRun s a) e

/-- The body of `PcInt::attachInterrupt` once the guard has passed, as
the sequence of micro-steps actually executed: save `SREG` and disable
interrupts, then the seven field mutations in source order, then restore
`SREG`. -/
def attachSteps {C A : Type} (b : Fin 8) (f : C) (arg : Option A) (mode pv : Nat) :
    List (FgStep C A) :=
  [ .saveAndCli,
    .write (fun p => { p with funcs := Function.update p.funcs b (some f) }),
    .write (fun p => { p with args := Function.update p.args b arg }),
    .write (fun p => { p with rising :=
      (if mode = RISING ∨ mode = CHANGE then p.rising ||| BV b.val
       else p.rising &&& compl8 (BV b.val)) % 256 }),
    .write (fun p => { p with falling :=
      (if mode = FALLING ∨ mode = CHANGE then p.falling ||| BV b.val
       else p.falling &&& compl8 (BV b.val)) % 256 }),
    .write (fun p => { p with pcmsk := (p.pcmsk ||| BV b.val) % 256 }),
    .write (fun p => { p with icrEnabled := true }),
    .write (fun p => { p with state :=
      ((p.state &&& compl8 (BV b.val)) ||| ((pv % 256) &&& BV b.val)) % 256 }),
    .restoreSreg ]

/-- C4: at every micro-step boundary of the attach critical section at
which the interrupt flag is on — the only points at which a dispatcher
run for the group can be recognised — the port-group state the dispatcher
would observe is either the fully pre-update state or the fully
post-update state (`attachBody` applied to it); no torn intermediate
combination of the multi-field update is ever observable, because the
whole mutation sits between `noInterrupts()` and the `SREG` restore. -/
theorem attach_atomic_spec {C A : Type} (b : Fin 8) (f : C) (arg : Option A)
    (mode pv : Nat) (p0 : PcIntPort C A) (s0 i0 : Bool) (k : Nat)
    (hk : k ≤ (attachSteps (C := C) (A := A) b f arg mode pv).length)
    (hirq : (fgRun ((attachSteps b f arg mode pv).take k) ⟨p0, s0, i0⟩).irqOn = true) :
    (fgRun ((attachSteps b f arg mode pv).take k) ⟨p0, s0, i0⟩).port = p0 ∨
    (fgRun ((attachSteps b f arg mode pv).take k) ⟨p0, s0, i0⟩).port
      = attachBody p0 b f arg mode pv := by
  have h9 : (attachSteps (C := C) (A := A) b f arg mode pv).length = 9 := rfl
  rw [h9] at hk
  interval_cases k
  · left
    rfl
  · exact absurd hirq (by simp [attachSteps, fgRun, fgStepRun])
  · exact absurd hirq (by simp [attachSteps, fgRun, fgStepRun])
  · exact absurd hirq (by simp [attachSteps, fgRun, fgStepRun])
  · exact absurd hirq (by simp [attachSteps, fgRun, fgStepRun])
  · exact absurd hirq (by simp [attachSteps, fgRun, fgStepRun])
  · exact absurd hirq (by simp [attachSteps, fgRun, fgStepRun])
  · exact absurd hirq (by simp [attachSteps, fgRun, fgStepRun])
  · exact absurd hirq (by simp [attachSteps, fgRun, fgStepRun])
  · right
    rfl

/-- Witness for C4: the boundary before the critical section (`k = 0`)
with interrupts initially on, on a concrete port state. -/
theorem attach_atomic_spec_witness :
    ((0 : Nat) ≤ (attachSteps (C := Nat) (A := Nat) 0 5 none 1 1).length ∧
      (fgRun ((attachSteps (C := Nat) (A := Nat) 0 5 none 1 1).take 0)
        ⟨wPort0, false, true⟩).irqOn = true ∧
      ((fgRun ((attachSteps (C := Nat) (A := Nat) 0 5 none 1 1).take 0)
          ⟨wPort0, false, true⟩).port = wPort0 ∨
       (fgRun ((attachSteps (C := Nat) (A := Nat) 0 5 none 1 1).take 0)
          ⟨wPort0, false, true⟩).port = attachBody wPort0 0 5 none 1 1)) :=
  ⟨Nat.zero_le _, rfl,
    attach_atomic_spec 0 5 none 1 1 wPort0 false true 0 (Nat.zero_le _) rfl⟩

end YetAnotherPCInt
